import Mathlib

/-!
Verification development for the JaegerAnomalyDetection streaming trace
processor. The Rust sources under `src/engine/src` and `src/lib/src` are
shallowly embedded:

* timestamps (`DateTime<Utc>`) and time deltas are integers (microseconds);
  `chrono`'s `duration_trunc` is flooring truncation to a multiple of the
  bin width;
* `f64` values flowing through the statistics pipeline are modelled as
  rationals (`ℚ`); the extended-precision (`Quad`) Welford arithmetic is
  modelled over a general field so that the same definitions serve the exact
  (`ℚ`) and real (`ℝ`) instantiations.  At every concrete input used below
  the floating-point computations of the source are exact, so the rational
  model is faithful there;
* `BTreeMap`/`BTreeSet` state is modelled as association lists (keys are
  unique; `BTreeMap` iteration order is not relevant to any statement
  proved here);
* the external regex engine is modelled as an abstract string predicate
  together with its source text (the source compares regexes by their
  source text);
* the external `tdigest` sketch is modelled by the multiset (list) of the
  values it was built from: `merge_sorted`/`merge_digests` concatenate,
  `TDigest::default()` is empty.
-/

namespace JAD

/-! ### Association-list helpers (model of `BTreeMap` state) -/

/-- First-match lookup in an association list. -/
def alookup {α β : Type} [DecidableEq α] : List (α × β) → α → Option β
  | [], _ => none
  | (k, v) :: rest, key => if k = key then some v else alookup rest key

/-- Model of `BTreeMap::remove`: return the removed value (if any) and the
remaining entries. -/
def aremove {α β : Type} [DecidableEq α] : List (α × β) → α → Option β × List (α × β)
  | [], _ => (none, [])
  | (k, v) :: rest, key =>
    if k = key then (some v, rest)
    else
      let r := aremove rest key
      (r.1, (k, v) :: r.2)

/-- Model of mutation through `BTreeMap::get_mut`: apply `f` to the entry
with the given key (keys are unique in a `BTreeMap`). -/
def amodify {α β : Type} [DecidableEq α] : List (α × β) → α → (β → β) → List (α × β)
  | [], _, _ => []
  | (k, v) :: rest, key, f =>
    (if k = key then (k, f v) else (k, v)) :: amodify rest key f

/-! ### Jaeger data model (`src/engine/src/jaeger.rs`)

`trace_id`, `start_time_millis` and `logs` are carried by the payload but
never read by the processor; they are omitted from the model. -/

inductive TagValue : Type where
  | str (s : String)
  | int64 (n : ℤ)
  | bool (b : Bool)
deriving DecidableEq, Repr

structure Tag where
  key : String
  value : TagValue
deriving DecidableEq, Repr

inductive RefType : Type where
  | childOf
deriving DecidableEq, Repr

structure Reference where
  ref_type : RefType
  span_id : String
deriving DecidableEq, Repr

structure Process where
  service_name : String
  tags : List Tag
deriving DecidableEq, Repr

structure Span where
  span_id : String
  operation_name : String
  references : List Reference
  start_time : ℤ
  duration : ℤ
  tags : List Tag
  process : Process
deriving DecidableEq, Repr

/-! ### Keys and selectors (`src/engine/src/config.rs`) -/

inductive KeyName : Type where
  | OperationName
  | ServiceName
  | ProcessTag (name : String)
  | SpanTag (name : String)
  | Duration
deriving DecidableEq, Repr

inductive SpanKey : Type where
  | Current (key : KeyName)
  | Parent (key : KeyName)
deriving DecidableEq, Repr

/-- `KeyName::get`. -/
def KeyName.get (k : KeyName) (span : Span) : Option TagValue :=
  match k with
  | .OperationName => some (.str span.operation_name)
  | .ServiceName => some (.str span.process.service_name)
  | .Duration => some (.int64 span.duration)
  | .ProcessTag name => (span.process.tags.find? fun tag => tag.key = name).map (·.value)
  | .SpanTag name => (span.tags.find? fun tag => tag.key = name).map (·.value)

/-- `SpanKey::get`. -/
def SpanKey.get (k : SpanKey) (span : Span) (parent : Option Span) : Option TagValue :=
  match k with
  | .Current key => key.get span
  | .Parent key => parent.bind fun span => key.get span

/-- The external regex engine (`regex::Regex`): source text plus an abstract
match predicate. `PartialEq` on the source type compares source texts. -/
structure Regex where
  src : String
  test : String → Bool

/-- `Regex::matches` (`is_match`). -/
def Regex.matches (re : Regex) (s : String) : Bool := re.test s

/-- `impl PartialEq for Regex`: comparison by regex source text. -/
def Regex.eqb (a b : Regex) : Bool := a.src = b.src

inductive LowerBound : Type where
  | Gt (n : ℤ)
  | Ge (n : ℤ)
deriving DecidableEq, Repr

inductive UpperBound : Type where
  | Lt (n : ℤ)
  | Le (n : ℤ)
deriving DecidableEq, Repr

structure Range where
  lower : Option LowerBound
  upper : Option UpperBound
deriving DecidableEq, Repr

def LowerBound.bmatches (b : LowerBound) (n : ℤ) : Bool :=
  match b with
  | .Gt v => v < n
  | .Ge v => v ≤ n

def UpperBound.bmatches (b : UpperBound) (n : ℤ) : Bool :=
  match b with
  | .Lt v => n < v
  | .Le v => n ≤ v

/-- `Range::contains`. -/
def Range.contains (r : Range) (n : ℤ) : Bool :=
  (match r.lower with
   | some bound => bound.bmatches n
   | none => true)
  && (match r.upper with
      | some bound => bound.bmatches n
      | none => true)

inductive SpanSelector : Type where
  | All (sels : List SpanSelector)
  | Any (sels : List SpanSelector)
  | Not (sel : SpanSelector)
  | Has (key : SpanKey)
  | In (key : SpanKey) (values : List String)
  | NotIn (key : SpanKey) (values : List String)
  | Match (key : SpanKey) (re : Regex)
  | NoMatch (key : SpanKey) (re : Regex)
  | KeyEq (a b : SpanKey)
  | KeyNe (a b : SpanKey)
  | Eq (key : SpanKey) (v : ℤ)
  | Ne (key : SpanKey) (v : ℤ)
  | Inside (key : SpanKey) (range : Range)
  | Outside (key : SpanKey) (range : Range)
  | IsTrue (key : SpanKey)
  | IsFalse (key : SpanKey)

mutual

/-- `SpanSelector::matches`.  (`All` and `Any` iterate the sub-selector
list with `all`/`any`; spelt as mutual recursion so that the definition
reduces computationally.) -/
def SpanSelector.matches (sel : SpanSelector) (span : Span) (parent : Option Span) : Bool :=
  match sel with
  | .All sels => SpanSelector.matchesAll sels span parent
  | .Any sels => SpanSelector.matchesAny sels span parent
  | .Not sel => !sel.matches span parent
  | .Has key => (key.get span parent).isSome
  | .In key values =>
    match key.get span parent with
    | some (.str s) => values.contains s
    | _ => false
  | .NotIn key values =>
    match key.get span parent with
    | some (.str s) => !values.contains s
    | _ => false
  | .Match key re =>
    match key.get span parent with
    | some (.str s) => re.matches s
    | _ => false
  | .NoMatch key re =>
    match key.get span parent with
    | some (.str s) => !re.matches s
    | _ => false
  | .KeyEq a b => a.get span parent = b.get span parent
  | .KeyNe a b => a.get span parent ≠ b.get span parent
  | .Eq key v =>
    match key.get span parent with
    | some (.int64 n) => n = v
    | _ => false
  | .Ne key v =>
    match key.get span parent with
    | some (.int64 n) => n ≠ v
    | _ => false
  | .Inside key range =>
    match key.get span parent with
    | some (.int64 n) => range.contains n
    | _ => false
  | .Outside key range =>
    match key.get span parent with
    | some (.int64 n) => !range.contains n
    | _ => false
  | .IsTrue key =>
    match key.get span parent with
    | some (.bool v) => v
    | _ => false
  | .IsFalse key =>
    match key.get span parent with
    | some (.bool v) => !v
    | _ => false

/-- `sels.iter().all(|sel| sel.matches(span, parent))`. -/
def SpanSelector.matchesAll (sels : List SpanSelector) (span : Span)
    (parent : Option Span) : Bool :=
  match sels with
  | [] => true
  | sel :: rest => sel.matches span parent && SpanSelector.matchesAll rest span parent

/-- `sels.iter().any(|sel| sel.matches(span, parent))`. -/
def SpanSelector.matchesAny (sels : List SpanSelector) (span : Span)
    (parent : Option Span) : Bool :=
  match sels with
  | [] => false
  | sel :: rest => sel.matches span parent || SpanSelector.matchesAny rest span parent

end

mutual

/-- Structural equality of selectors, with regexes compared by source text
(the derived `PartialEq for SpanSelector` in the source). -/
def SpanSelector.eqb (a b : SpanSelector) : Bool :=
  match a, b with
  | .All xs, .All ys => SpanSelector.eqbList xs ys
  | .Any xs, .Any ys => SpanSelector.eqbList xs ys
  | .Not x, .Not y => x.eqb y
  | .Has k, .Has k' => k = k'
  | .In k vs, .In k' vs' => k = k' && vs = vs'
  | .NotIn k vs, .NotIn k' vs' => k = k' && vs = vs'
  | .Match k re, .Match k' re' => k = k' && re.eqb re'
  | .NoMatch k re, .NoMatch k' re' => k = k' && re.eqb re'
  | .KeyEq x y, .KeyEq x' y' => x = x' && y = y'
  | .KeyNe x y, .KeyNe x' y' => x = x' && y = y'
  | .Eq k v, .Eq k' v' => k = k' && v = v'
  | .Ne k v, .Ne k' v' => k = k' && v = v'
  | .Inside k r, .Inside k' r' => k = k' && r = r'
  | .Outside k r, .Outside k' r' => k = k' && r = r'
  | .IsTrue k, .IsTrue k' => k = k'
  | .IsFalse k, .IsFalse k' => k = k'
  | _, _ => false

/-- Element-wise equality of selector lists (derived `PartialEq` on
`Vec<SpanSelector>`). -/
def SpanSelector.eqbList (xs ys : List SpanSelector) : Bool :=
  match xs, ys with
  | [], [] => true
  | x :: xs, y :: ys => x.eqb y && SpanSelector.eqbList xs ys
  | _, _ => false

end

/-! ### Durations and window configuration (`src/lib/src/config.rs`,
`src/lib/src/anomaly_score.rs`)

Timestamps are integers counted in microseconds; `Duration::to_time_delta`
converts to that unit. -/

inductive Duration : Type where
  | Seconds (n : ℕ)
  | Minutes (n : ℕ)
  | Hours (n : ℕ)
  | Days (n : ℕ)
  | Weeks (n : ℕ)
deriving DecidableEq, Repr

/-- `Duration::to_time_delta`, in microseconds. -/
def Duration.toTimeDelta (d : Duration) : ℤ :=
  match d with
  | .Seconds n => n * 1000000
  | .Minutes n => n * 60 * 1000000
  | .Hours n => n * 3600 * 1000000
  | .Days n => n * 86400 * 1000000
  | .Weeks n => n * 7 * 86400 * 1000000

/-- `Duration::minutes`. -/
def Duration.minutes (d : Duration) : ℚ :=
  match d with
  | .Seconds n => (n : ℚ) / 60
  | .Minutes n => (n : ℚ)
  | .Hours n => (n : ℚ) * 60
  | .Days n => (n : ℚ) * 24 * 60
  | .Weeks n => (n : ℚ) * 7 * 24 * 60

/-- `Duration::multiply`. -/
def Duration.multiply (d : Duration) (rhs : ℕ) : Duration :=
  match d with
  | .Seconds n => .Seconds (n * rhs)
  | .Minutes n => .Minutes (n * rhs)
  | .Hours n => .Hours (n * rhs)
  | .Days n => .Days (n * rhs)
  | .Weeks n => .Weeks (n * rhs)

structure WindowConfig where
  bin_width : Duration
  num_bins : ℕ
deriving DecidableEq, Repr

inductive ImmediateInterval : Type where
  | I5m
  | I15m
deriving DecidableEq, Repr

inductive ReferenceInterval : Type where
  | R7d
  | R30d
deriving DecidableEq, Repr

def ImmediateInterval.window_config (i : ImmediateInterval) : WindowConfig :=
  match i with
  | .I5m => { bin_width := .Seconds 30, num_bins := 5 * 2 }
  | .I15m => { bin_width := .Seconds 30, num_bins := 15 * 2 }

def ReferenceInterval.window_config (i : ReferenceInterval) : WindowConfig :=
  match i with
  | .R7d => { bin_width := .Minutes 15, num_bins := 7 * 24 * 4 }
  | .R30d => { bin_width := .Hours 1, num_bins := 30 * 24 }

/-! ### Ring window (`src/engine/src/window.rs`) -/

/-- `chrono`'s `DateTime::duration_trunc`: floor `t` to a multiple of the
(positive) span `bw`.  For a non-negative timestamp this is `t - t % bw`
with Rust's truncating `%`; for a negative one the implementation adds the
span back, which together is exactly Euclidean mod. -/
def truncTo (bw t : ℤ) : ℤ := t - t % bw

structure Window (T : Type) where
  i : ℕ
  start : ℤ
  bin_width : Duration
  ring : List T
deriving Repr

namespace Window

/-- `Window::bin_width`. -/
def binWidth {T : Type} (w : Window T) : ℤ := w.bin_width.toTimeDelta

/-- `Window::num_bins`. -/
def num_bins {T : Type} (w : Window T) : ℕ := w.ring.length

/-- `Window::minutes`. -/
def minutes {T : Type} (w : Window T) : ℚ :=
  (w.bin_width.multiply w.ring.length).minutes

/-- `Window::compatible_with`. -/
def compatible_with {T : Type} (w : Window T) (config : WindowConfig) : Bool :=
  w.binWidth = config.bin_width.toTimeDelta && w.num_bins = config.num_bins

/-- `Window::current` (ring indexing never goes out of bounds for the
windows built by `new_init`; a default element stands in for the
out-of-range access that would panic in Rust). -/
def current {T : Type} [Inhabited T] (w : Window T) : T :=
  w.ring.getD w.i default

/-- `Window::first`. -/
def first {T : Type} [Inhabited T] (w : Window T) : T :=
  w.ring.getD ((w.i + 1) % w.ring.length) default

/-- `Window::current_mut` followed by writing the updated value back. -/
def modifyCurrent {T : Type} [Inhabited T] (w : Window T) (f : T → T) : Window T :=
  { w with ring := w.ring.set w.i (f (w.ring.getD w.i default)) }

/-- `Window::bins`: oldest-to-newest traversal.  (The source computes
`self.i + 1 % self.ring.len()`, which by Rust operator precedence is
`i + (1 % len)`.) -/
def bins {T : Type} (w : Window T) : List T :=
  let first := w.i + 1 % w.ring.length
  w.ring.drop first ++ w.ring.take first

/-- `Window::new_init`. -/
def new_init {T : Type} (start : ℤ) (init : ℤ → T) (config : WindowConfig) : Window T :=
  let start' := truncTo config.bin_width.toTimeDelta start
  let bw := config.bin_width.toTimeDelta
  { i := 0
    start := start'
    bin_width := config.bin_width
    ring := (List.range config.num_bins).map fun (i : ℕ) => init (start' + bw * (i : ℤ)) }

/-- `Window::new` (`T::default()` initialisation). -/
def new {T : Type} [Inhabited T] (start : ℤ) (config : WindowConfig) : Window T :=
  new_init start (fun _ => default) config

/-- One iteration of the `advance_init` loop: advance `i`, reinitialise the
newly-current bucket, move `start` forward. -/
def advanceStep {T : Type} (init : ℤ → T) (w : Window T) : Window T :=
  let next := w.start + w.binWidth
  let i' := (w.i + 1) % w.ring.length
  { w with i := i', ring := w.ring.set i' (init next), start := next }

/-- The `advance_init` loop, spelt with explicit fuel.  Each executed
iteration moves `start` up by `bin_width ≥ 1` microsecond, so
`(t_trunc - start).toNat` iterations always suffice (see
`advanceLoop_start_le`). -/
def advanceLoop {T : Type} (init : ℤ → T) (ttr : ℤ) : ℕ → Window T → Window T
  | 0, w => w
  | fuel + 1, w =>
    if w.start + w.binWidth ≤ ttr then advanceLoop init ttr fuel (advanceStep init w)
    else w

/-- `Window::advance_init`. -/
def advance_init {T : Type} (w : Window T) (t : ℤ) (init : ℤ → T) : Window T :=
  let ttr := truncTo w.binWidth t
  advanceLoop init ttr (ttr - w.start).toNat w

/-- The `advance_with_init` loop: like `advanceLoop`, but collect
`output` applied to the pre-advance state once per executed iteration. -/
def advanceWithLoop {T U : Type} (init : ℤ → T) (output : Window T → U) (ttr : ℤ) :
    ℕ → Window T → List U × Window T
  | 0, w => ([], w)
  | fuel + 1, w =>
    if w.start + w.binWidth ≤ ttr then
      let r := advanceWithLoop init output ttr fuel (advanceStep init w)
      (output w :: r.1, r.2)
    else ([], w)

/-- `Window::advance_with_init` (the iterator is fully drained by every
caller in the source). -/
def advance_with_init {T U : Type} (w : Window T) (t : ℤ) (init : ℤ → T)
    (output : Window T → U) : List U × Window T :=
  let ttr := truncTo w.binWidth t
  advanceWithLoop init output ttr (ttr - w.start).toNat w

/-- `Window::advance_with` (`T::default()` initialisation). -/
def advance_with {T U : Type} [Inhabited T] (w : Window T) (t : ℤ)
    (output : Window T → U) : List U × Window T :=
  advance_with_init w t (fun _ => default) output

end Window

/-! ### Welford accumulator (`src/engine/src/welford.rs`)

`Welford<T>` is generic over the float type; the arithmetic is modelled
over an arbitrary field (`ℚ` for the exact pipeline, `ℝ` for the windowed
statistics that need square roots).  `mul_add(a, b)` is `self * a + b`. -/

structure Welford (α : Type) where
  count : α
  mean : α
  m2 : α
deriving DecidableEq, Repr

instance {α : Type} [Zero α] : Inhabited (Welford α) := ⟨⟨0, 0, 0⟩⟩

namespace Welford

/-- `Welford::insert` (`Accum::insert`). -/
def insert {α : Type} [Field α] (w : Welford α) (n : α) : Welford α :=
  let old_mean := w.mean
  let count := w.count + 1
  let mean := w.mean + (n - old_mean) / count
  { count := count, mean := mean, m2 := (n - mean) * (n - old_mean) + w.m2 }

/-- `Welford::merge` (`Accum::merge`), exactly as written in the source:
`self.mean += delta.mul_add(other.count / self.count, other.count)`. -/
def merge {α : Type} [Field α] (w other : Welford α) : Welford α :=
  let delta := other.mean - w.mean
  { mean := w.mean + (delta * (other.count / w.count) + other.count)
    m2 := w.m2 + (delta * delta * (w.count * other.count / (w.count + other.count)) + other.m2)
    count := w.count + other.count }

/-- Modelled from the spec: Chan's parallel merge formula as stated in
§4.4.1 (`combined.mean = A.mean + δ·B.count/(A.count+B.count)`; the claim
under examination).  Compared against `Welford.merge` above. -/
def chanMerge {α : Type} [Field α] (a b : Welford α) : Welford α :=
  let delta := b.mean - a.mean
  { mean := a.mean + delta * b.count / (a.count + b.count)
    m2 := a.m2 + b.m2 + delta * delta * (a.count * b.count) / (a.count + b.count)
    count := a.count + b.count }

end Welford

/-! Windowed Welford statistics (`impl Window<Welford<T>>`), over `ℝ`
because `stddev` takes a square root.  `confidence_interval` is
parameterised by the Student-t CDF supplied by the external `distrs`
crate: the source calls `distrs::StudentsT::cdf(q, df)`, the CDF evaluated
at the point `q` with `df` degrees of freedom. -/

namespace Window

/-- `Window::<Welford<T>>::count`. -/
def wcount {α : Type} [Field α] (w : Window (Welford α)) : α :=
  w.current.count - w.first.count

/-- `Window::<Welford<T>>::mean`. -/
def wmean {α : Type} [Field α] (w : Window (Welford α)) : α :=
  let a := w.first
  let ab := w.current
  a.mean + (ab.mean - a.mean) * (ab.count / (ab.count - a.count))

/-- `Window::<Welford<T>>::m2`. -/
def wm2 {α : Type} [Field α] (w : Window (Welford α)) : α :=
  let a := w.first
  let ab := w.current
  let count := ab.count - a.count
  let mean_diff := ab.mean - a.mean
  (ab.m2 - a.m2) - mean_diff * mean_diff * (ab.count * a.count / count)

/-- `Window::<Welford<T>>::stddev`.  The square root is computed by the
external `ieee_apsqrt` crate, modelled (like the `distrs` CDF below) as an
explicit function parameter; the theorems instantiate it with `Real.sqrt`. -/
def wstddev {α : Type} [Field α] (sqrt : α → α) (w : Window (Welford α)) : α :=
  sqrt (w.wm2 / (w.wcount - 1))

/-- `Window::<Welford<T>>::confidence_interval`.  `cdf q df` models
`distrs::StudentsT::cdf(q, df)`. -/
def confidence_interval {α : Type} [Field α] (sqrt : α → α) (cdf : α → α → α)
    (w : Window (Welford α)) (q : α) : α :=
  w.wstddev sqrt * cdf q (w.wcount - 1) / w.wcount

end Window

/-! ### Accumulators (`src/engine/src/accum.rs`) -/

/-- `Count`. -/
structure Count where
  val : ℕ
deriving DecidableEq, Repr

instance : Inhabited Count := ⟨⟨0⟩⟩

/-- `Count`'s `Accum::insert`. -/
def Count.insert (c : Count) : Count := ⟨c.val + 1⟩

/-- `Count`'s `Accum::merge`. -/
def Count.merge (c other : Count) : Count := ⟨c.val + other.val⟩

/-- `MergeAcc::merge` for `Count` bins: fold `merge` from `default`. -/
def Count.mergeAll (bins : List Count) : Count :=
  bins.foldl Count.merge default

/-- The external `tdigest::TDigest` sketch, modelled by the list of values
it holds (`TDigest::default()` is the empty sketch). -/
abbrev TDigest : Type := List ℚ

/-- `TDigest::merge_sorted`: absorb a batch of values. -/
def TDigest.merge_sorted (d : TDigest) (vs : List ℚ) : TDigest :=
  d ++ vs

/-- `TDigest`'s `Accum::merge` (`TDigest::merge_digests`). -/
def TDigest.merge (d other : TDigest) : TDigest :=
  d ++ other

/-- `MergeAcc::merge` for digest bins: fold `merge` from `default`. -/
def TDigest.mergeAll (bins : List TDigest) : TDigest :=
  bins.foldl TDigest.merge default

/-! ### Source processor (`src/engine/src/processor/source.rs`) -/

/-- `TagValue::as_int`. -/
def TagValue.as_int (v : TagValue) : Option ℤ :=
  match v with
  | .int64 n => some n
  | _ => none

inductive MetricSource : Type where
  | Tag (name : String)
  | Duration
  | SelfDuration
  | TagExcept (tag : String) (key : String)
  | Rate (select : SpanSelector)
  | Count (window : WindowConfig)

inductive SourceProcessor : Type where
  | SelfDuration
  | Duration
  | Tag (name : String)
  | TagExcept (tag : String) (key : String)
  | Rate (select : SpanSelector)
  | Count (window : Window Count) (count : ℕ)

namespace SourceProcessor

/-- `SourceProcessor::new`. -/
def new (t : ℤ) (config : MetricSource) : SourceProcessor :=
  match config with
  | .Tag name => .Tag name
  | .Duration => .Duration
  | .SelfDuration => .SelfDuration
  | .TagExcept tag key => .TagExcept tag key
  | .Rate select => .Rate select
  | .Count window => .Count (Window.new t window) 0

/-- `SourceProcessor::update`. -/
def update (s : SourceProcessor) (_t : ℤ) (config : MetricSource) :
    Option SourceProcessor :=
  match s, config with
  | .Tag prev, .Tag name => if name = prev then some (.Tag prev) else none
  | .TagExcept prev_tag prev_key, .TagExcept tag key =>
    if tag = prev_tag ∧ key = prev_key then some (.TagExcept prev_tag prev_key) else none
  | .SelfDuration, .SelfDuration => some .SelfDuration
  | .Rate prev_select, .Rate select =>
    if select.eqb prev_select then some (.Rate prev_select) else none
  | .Count window count, .Count window_config =>
    if window.compatible_with window_config then some (.Count window count) else none
  | _, _ => none

/-- The `SelfDuration` fold of `SourceProcessor::insert`: time not spent in
any child span, children ordered by start time. -/
def selfDuration (span : Span) (children : List Span) : ℤ :=
  let span_end_time := span.start_time + span.duration
  (children.foldl
    (fun acc child =>
      let sum := acc.1
      let max_end_time := acc.2
      let child_end_time := child.start_time + child.duration
      (sum - child.duration
         + min (max (max_end_time - child.start_time) 0) child.duration
         + min (max (child_end_time - span_end_time) 0) child.duration
         - min (max (max_end_time - span_end_time) 0) child.duration,
       max max_end_time child_end_time))
    (span.duration, span.start_time)).1

/-- `SourceProcessor::insert`: the updated state together with the values
passed to the callback `f`, in call order. -/
def insert (s : SourceProcessor) (t : ℤ) (span : Span) (parent : Option Span)
    (children : List Span) : SourceProcessor × List ℚ :=
  match s with
  | .Duration => (.Duration, [(span.duration : ℚ)])
  | .SelfDuration => (.SelfDuration, [(selfDuration span children : ℚ)])
  | .Tag name =>
    (.Tag name,
     match (span.tags.find? fun tag => tag.key = name).bind (·.value.as_int) with
     | some n => [(n : ℚ)]
     | none => [])
  | .TagExcept name key =>
    (.TagExcept name key,
     match (span.tags.find? fun tag => tag.key = name).bind (·.value.as_int) with
     | some n =>
       let id := (span.tags.find? fun tag => tag.key = key).map (·.value)
       let cn :=
         ((children.filter fun span =>
             match id with
             | none => true
             | some id =>
               match span.tags.find? fun tag => tag.key = key with
               | none => true
               | some tag => tag.value = id).filterMap
           fun span => (span.tags.find? fun tag => tag.key = name).bind (·.value.as_int)).sum
       [((n - cn : ℤ) : ℚ)]
     | none => [])
  | .Rate select => (.Rate select, [if select.matches span parent then 1 else 0])
  | .Count window count =>
    let r := window.advance_with t fun window =>
      ((Count.mergeAll window.bins).val : ℚ) / window.minutes
    (.Count (r.2.modifyCurrent Count.insert) (count + 1), r.1)

end SourceProcessor

/-! ### Statistics sub-processors (`mean_stddev.rs`, `summary.rs`,
`histogram.rs`, `anomaly_score.rs`) -/

inductive MeanStddevAlgorithm : Type where
  | CountSum
  | Welford
deriving DecidableEq, Repr

structure MeanStddevConfig where
  algorithm : MeanStddevAlgorithm
deriving DecidableEq, Repr

inductive MeanStddevProcessor : Type where
  | CountSum (count : ℕ) (sum : ℚ)
  | Welford (acc : Welford ℚ)
deriving DecidableEq, Repr

namespace MeanStddevProcessor

/-- `MeanStddevProcessor::new`. -/
def new (config : MeanStddevConfig) : MeanStddevProcessor :=
  match config.algorithm with
  | .CountSum => .CountSum 0 0
  | .Welford => .Welford default

/-- `MeanStddevProcessor::update`. -/
def update (s : MeanStddevProcessor) (config : MeanStddevConfig) : MeanStddevProcessor :=
  match s, config.algorithm with
  | .CountSum count sum, .CountSum => .CountSum count sum
  | .Welford acc, .Welford => .Welford acc
  | _, _ => new config

/-- `MeanStddevProcessor::insert`. -/
def insert (s : MeanStddevProcessor) (value : ℚ) : MeanStddevProcessor :=
  match s with
  | .CountSum count sum => .CountSum (count + 1) (sum + value)
  | .Welford acc => .Welford (acc.insert value)

end MeanStddevProcessor

structure SummaryConfig where
  window : WindowConfig
  percentiles : List ℚ
deriving DecidableEq, Repr

structure SummaryProcessor where
  percentiles : List ℚ
  window : Window TDigest
  count : ℕ
  sum : ℚ
deriving Repr

namespace SummaryProcessor

/-- `SummaryProcessor::new`. -/
def new (t : ℤ) (config : SummaryConfig) : SummaryProcessor :=
  { percentiles := config.percentiles
    window := Window.new t config.window
    count := 0
    sum := 0 }

/-- `SummaryProcessor::update`. -/
def update (s : SummaryProcessor) (t : ℤ) (config : SummaryConfig) : SummaryProcessor :=
  if s.window.compatible_with config.window then
    { percentiles := config.percentiles
      window := s.window
      count := s.count
      sum := s.sum }
  else new t config

/-- `SummaryProcessor::insert`. -/
def insert (s : SummaryProcessor) (value : ℚ) : SummaryProcessor :=
  { s with
    count := s.count + 1
    sum := s.sum + value
    window := s.window.modifyCurrent fun tdigest => tdigest.merge_sorted [value] }

/-- The digest merged by `SummaryProcessor::sample`
(`self.window.bins().merge()`). -/
def sampleDigest (s : SummaryProcessor) : TDigest :=
  TDigest.mergeAll s.window.bins

end SummaryProcessor

structure HistogramConfig where
  bounds : List ℚ
deriving DecidableEq, Repr

structure HistogramProcessor where
  bounds : List ℚ
  bins : List ℚ
  count : ℕ
  sum : ℚ
deriving DecidableEq, Repr

namespace HistogramProcessor

/-- `HistogramProcessor::new`. -/
def new (config : HistogramConfig) : HistogramProcessor :=
  { bounds := config.bounds
    bins := config.bounds.map fun _ => 0
    count := 0
    sum := 0 }

/-- `HistogramProcessor::update`. -/
def update (s : HistogramProcessor) (config : HistogramConfig) : HistogramProcessor :=
  if s.bounds = config.bounds then
    { bounds := config.bounds, bins := s.bins, count := s.count, sum := s.sum }
  else new config

/-- The `take_while`d bin bump of `HistogramProcessor::insert`. -/
def bumpBins (value : ℚ) : List ℚ → List ℚ → List ℚ
  | bound :: bounds, bin :: bins =>
    if value ≤ bound then (bin + 1) :: bumpBins value bounds bins else bin :: bins
  | _, bins => bins

/-- `HistogramProcessor::insert`. -/
def insert (s : HistogramProcessor) (value : ℚ) : HistogramProcessor :=
  { s with
    count := s.count + 1
    sum := s.sum + value
    bins := bumpBins value s.bounds s.bins }

end HistogramProcessor

structure AnomalyScoreConfig where
  reference_intervals : List ReferenceInterval
  immediate_intervals : List ImmediateInterval
  offset : ℚ
  q : ℚ
deriving DecidableEq, Repr

structure AnomalyScoreProcessor where
  welford : Welford ℚ
  config : AnomalyScoreConfig
  immediate : List (ImmediateInterval × Window (Welford ℚ))
  reference : List (ReferenceInterval × Window (Welford ℚ))

namespace AnomalyScoreProcessor

/-- `AnomalyScoreProcessor::new`. -/
def new (t : ℤ) (config : AnomalyScoreConfig) : AnomalyScoreProcessor :=
  { welford := default
    config := config
    immediate := config.immediate_intervals.map fun interval =>
      (interval, Window.new t interval.window_config)
    reference := config.reference_intervals.map fun interval =>
      (interval, Window.new t interval.window_config) }

/-- `AnomalyScoreProcessor::update`. -/
def update (s : AnomalyScoreProcessor) (t : ℤ) (config : AnomalyScoreConfig) :
    AnomalyScoreProcessor :=
  { welford := s.welford
    config := config
    immediate := config.immediate_intervals.map fun interval =>
      match (alookup s.immediate interval).filter
          (fun window => window.compatible_with interval.window_config) with
      | some window => (interval, window)
      | none =>
        (interval, Window.new_init t (fun _ => s.welford) interval.window_config)
    reference := config.reference_intervals.map fun interval =>
      match (alookup s.reference interval).filter
          (fun window => window.compatible_with interval.window_config) with
      | some window => (interval, window)
      | none =>
        (interval, Window.new_init t (fun _ => s.welford) interval.window_config) }

/-- `AnomalyScoreProcessor::insert`. -/
def insert (s : AnomalyScoreProcessor) (t : ℤ) (v : ℚ) : AnomalyScoreProcessor :=
  let prev := s.welford
  let welford := s.welford.insert v
  let value : ℤ → Welford ℚ := fun e => if e ≤ t then welford else prev
  { s with
    welford := welford
    immediate := s.immediate.map fun iw =>
      (iw.1, iw.2.advance_init t fun st => value (st + iw.2.binWidth))
    reference := s.reference.map fun iw =>
      (iw.1, iw.2.advance_init t fun st => value (st + iw.2.binWidth)) }

end AnomalyScoreProcessor

/-! ### Stats fan-out (`src/engine/src/processor/stats.rs`) -/

structure StatsConfig where
  anomaly_score : Option AnomalyScoreConfig
  mean_stddev : Option MeanStddevConfig
  summary : Option SummaryConfig
  histogram : Option HistogramConfig

structure StatsProcessor where
  anomaly_score : Option AnomalyScoreProcessor
  mean_stddev : Option MeanStddevProcessor
  summary : Option SummaryProcessor
  histogram : Option HistogramProcessor

namespace StatsProcessor

/-- `StatsProcessor::new`. -/
def new (t : ℤ) (config : StatsConfig) : StatsProcessor :=
  { anomaly_score := config.anomaly_score.map fun config => AnomalyScoreProcessor.new t config
    mean_stddev := config.mean_stddev.map MeanStddevProcessor.new
    histogram := config.histogram.map HistogramProcessor.new
    summary := config.summary.map fun config => SummaryProcessor.new t config }

/-- `StatsProcessor::update`. -/
def update (s : StatsProcessor) (t : ℤ) (config : StatsConfig) : StatsProcessor :=
  { anomaly_score := config.anomaly_score.map fun config =>
      match s.anomaly_score with
      | some proc => proc.update t config
      | none => AnomalyScoreProcessor.new t config
    mean_stddev := config.mean_stddev.map fun config =>
      match s.mean_stddev with
      | some proc => proc.update config
      | none => MeanStddevProcessor.new config
    histogram := config.histogram.map fun config =>
      match s.histogram with
      | some proc => proc.update config
      | none => HistogramProcessor.new config
    summary := config.summary.map fun config =>
      match s.summary with
      | some proc => proc.update t config
      | none => SummaryProcessor.new t config }

/-- `StatsProcessor::insert`. -/
def insert (s : StatsProcessor) (t : ℤ) (value : ℚ) : StatsProcessor :=
  { anomaly_score := s.anomaly_score.map fun acc => acc.insert t value
    mean_stddev := s.mean_stddev.map fun acc => acc.insert value
    summary := s.summary.map fun acc => acc.insert value
    histogram := s.histogram.map fun acc => acc.insert value }

end StatsProcessor

/-! ### Metric processor (`src/engine/src/processor/metric.rs`) -/

structure MetricConfig where
  source : MetricSource
  stats : StatsConfig

structure MetricProcessor where
  source : SourceProcessor
  stats : StatsProcessor

namespace MetricProcessor

/-- `MetricProcessor::new`. -/
def new (t : ℤ) (config : MetricConfig) : MetricProcessor :=
  { source := SourceProcessor.new t config.source
    stats := StatsProcessor.new t config.stats }

/-- `MetricProcessor::update`. -/
def update (s : MetricProcessor) (t : ℤ) (config : MetricConfig) : MetricProcessor :=
  match s.source.update t config.source with
  | some source => { source := source, stats := s.stats.update t config.stats }
  | none => new t config

/-- `MetricProcessor::insert`: each value produced by the source is
forwarded to `stats.insert(t, v)` in order. -/
def insert (s : MetricProcessor) (t : ℤ) (span : Span) (parent : Option Span)
    (children : List Span) : MetricProcessor :=
  let r := s.source.insert t span parent children
  { source := r.1, stats := r.2.foldl (fun stats v => stats.insert t v) s.stats }

end MetricProcessor

/-! ### Span processor (`src/engine/src/processor/span.rs`) -/

structure SpanConfig where
  key : List SpanKey
  metrics : List (String × MetricConfig)

structure MetricsProcessor where
  last_seen : ℤ
  metrics : List (String × MetricProcessor)

structure SpanProcessor where
  config : SpanConfig
  groups : List (List (SpanKey × TagValue) × MetricsProcessor)

namespace SpanProcessor

/-- `SpanProcessor::new`. -/
def new (config : SpanConfig) : SpanProcessor :=
  { config := config, groups := [] }

/-- The metric-map reconciliation of `SpanProcessor::update`: rebuild the
map from the new config, draining matching entries from the old map. -/
def reconcileMetrics (t : ℤ) : List (String × MetricConfig) →
    List (String × MetricProcessor) → List (String × MetricProcessor)
  | [], _ => []
  | (name, config) :: rest, old =>
    let r := aremove old name
    match r.1 with
    | some proc => (name, proc.update t config) :: reconcileMetrics t rest r.2
    | none => (name, MetricProcessor.new t config) :: reconcileMetrics t rest r.2

/-- `SpanProcessor::update`. -/
def update (s : SpanProcessor) (t : ℤ) (config : SpanConfig) : SpanProcessor :=
  { config := config
    groups :=
      if s.config.key = config.key then
        s.groups.map fun km =>
          (km.1, { km.2 with metrics := reconcileMetrics t config.metrics km.2.metrics })
      else [] }

/-- `SpanProcessor::insert`. -/
def insert (s : SpanProcessor) (t : ℤ) (span : Span) (parent : Option Span)
    (children : List Span) : SpanProcessor :=
  let key := s.config.key.filterMap fun key =>
    (key.get span parent).map fun v => (key, v)
  let doInsert : MetricsProcessor → MetricsProcessor := fun m =>
    { m with metrics := m.metrics.map fun np => (np.1, np.2.insert t span parent children) }
  { s with
    groups :=
      match alookup s.groups key with
      | some _ => amodify s.groups key doInsert
      | none =>
        s.groups ++
          [(key,
            doInsert
              { last_seen := t
                metrics := s.config.metrics.map fun nc => (nc.1, MetricProcessor.new t nc.2) })] }

/-- `SpanProcessor::cleanup`: retain groups with `last_seen >= t`. -/
def cleanup (s : SpanProcessor) (t : ℤ) : SpanProcessor :=
  { s with groups := s.groups.filter fun g => t ≤ g.2.last_seen }

end SpanProcessor

/-! ### Trace processor (`src/engine/src/processor/trace.rs`) -/

structure Rule where
  select : SpanSelector
  config : String

structure TraceConfig where
  rules : List (List Rule)
  configs : List (String × SpanConfig)

structure TraceProcessor where
  rules : List (List Rule)
  groups : List (String × SpanProcessor)

namespace TraceProcessor

/-- `TraceProcessor::new`. -/
def new (config : TraceConfig) : TraceProcessor :=
  { rules := config.rules
    groups := config.configs.map fun nc => (nc.1, SpanProcessor.new nc.2) }

/-- The body of the `if let Some(proc) = self.groups.get_mut(&rule.config)`
step of `TraceProcessor::insert`: route one span to one configuration's
span processor, or do nothing when the configuration has no processor. -/
def routeInsert (groups : List (String × SpanProcessor)) (config : String) (t : ℤ)
    (span : Span) (parent : Option Span) (children : List Span) :
    List (String × SpanProcessor) :=
  match alookup groups config with
  | some _ => amodify groups config fun proc => proc.insert t span parent children
  | none => groups

/-- `entry(parent).or_default().push(span)` for the children map. -/
def pushChild (map : List (String × List Span)) (parent : String) (span : Span) :
    List (String × List Span) :=
  match alookup map parent with
  | some _ => amodify map parent fun l => l ++ [span]
  | none => map ++ [(parent, [span])]

/-- `TraceProcessor::insert`. -/
def insert (s : TraceProcessor) (t : ℤ) (trace : List Span) : TraceProcessor :=
  let spans := trace.map fun span => (span.span_id, span)
  let parents : List (String × Span) := trace.filterMap fun span =>
    (span.references.find? fun r => r.ref_type = RefType.childOf).bind fun r =>
      (alookup spans r.span_id).map fun parent => (span.span_id, parent)
  let children : List (String × List Span) :=
    (trace.filterMap fun span =>
        (span.references.find? fun r => r.ref_type = RefType.childOf).map fun r =>
          (r.span_id, span)).foldl
      (fun map ps => pushChild map ps.1 ps.2) []
  { s with
    groups := trace.foldl
      (fun groups span =>
        (s.rules.filterMap fun rules =>
            rules.find? fun rule =>
              rule.select.matches span (alookup parents span.span_id)).foldl
          (fun groups rule =>
            let parent := alookup parents span.span_id
            let cs := (alookup children span.span_id).getD []
            routeInsert groups rule.config t span parent cs)
          groups)
      s.groups }

end TraceProcessor

/-! ### Specification-side definitions and concrete fixtures -/

/-- Modelled from the spec (§4.3): `clamp(v, 0, d)`. -/
def clamp (v d : ℤ) : ℤ := min (max v 0) d

/-- Modelled from the spec (§4.3, C6): the `SelfDuration` recurrence as the
claim words it — `sum -= child.duration - clamp(max_end - child.start, 0,
child.duration) - clamp(child.end - span.end, 0, child.duration) +
clamp(max_end - span.end, 0, child.duration)`, `max_end` seeded at
`span.start`. -/
def selfDurationSpec (span : Span) (children : List Span) : ℤ :=
  let span_end := span.start_time + span.duration
  (children.foldl
    (fun acc child =>
      let child_end := child.start_time + child.duration
      (acc.1 -
         (child.duration - clamp (acc.2 - child.start_time) child.duration
            - clamp (child_end - span_end) child.duration
            + clamp (acc.2 - span_end) child.duration),
       max acc.2 child_end))
    (span.duration, span.start_time)).1

/-- A minimal concrete span (no tags, no references). -/
def mkSpan (id : String) (start dur : ℤ) : Span :=
  { span_id := id, operation_name := "op", references := [], start_time := start,
    duration := dur, tags := [], process := { service_name := "svc", tags := [] } }

/-- Fixture for C2: a span configuration with an empty key set and no
metrics. -/
def cfgNoMetrics : SpanConfig := { key := [], metrics := [] }

/-- Fixture for C3/C10: stats consisting of a single `CountSum`
mean/stddev accumulator. -/
def csStats : StatsConfig :=
  { anomaly_score := none, mean_stddev := some ⟨.CountSum⟩, summary := none,
    histogram := none }

/-- Fixture for C3/C10: one `duration` metric with `CountSum` stats,
empty group key. -/
def cfgDur : SpanConfig :=
  { key := [], metrics := [("duration", { source := .Duration, stats := csStats })] }

/-- Fixture for C3: two outer rule lists whose (always-matching) rules
both select configuration `"a"`. -/
def dupRulesConfig : TraceConfig :=
  { rules := [[⟨.All [], "a"⟩], [⟨.All [], "a"⟩]], configs := [("a", cfgDur)] }

/-- Project the `CountSum` counter out of a mean/stddev processor. -/
def csCount (p : Option MeanStddevProcessor) : Option ℕ :=
  match p with
  | some (.CountSum count _) => some count
  | _ => none

/-- Fixture for C8: a `duration` metric configuration. -/
def mDur : MetricConfig := { source := .Duration, stats := csStats }

/-- Fixture for C8: a configuration whose key set differs from `cfgDur`'s
empty key set. -/
def cfgKeyNS : SpanConfig := { key := [.Current .ServiceName], metrics := [] }

/-- Fixture for C8: same (empty) key set as `cfgDur`, with the existing
`duration` metric and a fresh `extra` metric. -/
def cfgDur2 : SpanConfig :=
  { key := [], metrics := [("duration", mDur), ("extra", mDur)] }

/-! ## Association-list lemmas -/

theorem alookup_amodify {α β : Type} [DecidableEq α] (l : List (α × β)) (key : α)
    (f : β → β) (key' : α) :
    alookup (amodify l key f) key' =
      if key' = key then (alookup l key').map f else alookup l key' := by
  induction l with
  | nil => by_cases h : key' = key <;> simp [alookup, amodify, h]
  | cons kv rest ih =>
    obtain ⟨a, b⟩ := kv
    by_cases h1 : a = key
    · subst h1
      rw [amodify, if_pos rfl]
      by_cases h2 : a = key'
      · subst h2
        simp [alookup]
      · have h3 : ¬key' = a := fun he => h2 he.symm
        rw [alookup, if_neg h2, alookup, if_neg h2, ih]
    · rw [amodify, if_neg h1]
      by_cases h2 : a = key'
      · subst h2
        have h3 : ¬a = key := h1
        rw [alookup, if_pos rfl, alookup, if_pos rfl, if_neg h3]
      · rw [alookup, if_neg h2, alookup, if_neg h2, ih]

theorem amodify_amodify {α β : Type} [DecidableEq α] (l : List (α × β)) (key : α)
    (f g : β → β) :
    amodify (amodify l key f) key g = amodify l key fun b => g (f b) := by
  induction l with
  | nil => rfl
  | cons kv rest ih =>
    obtain ⟨a, b⟩ := kv
    by_cases h : a = key
    · subst h
      rw [amodify, if_pos rfl, amodify, if_pos rfl, amodify, if_pos rfl, ih]
    · rw [amodify, if_neg h, amodify, if_neg h, amodify, if_neg h, ih]

theorem amodify_map_fst {α β : Type} [DecidableEq α] (l : List (α × β)) (key : α)
    (f : β → β) :
    (amodify l key f).map Prod.fst = l.map Prod.fst := by
  induction l with
  | nil => rfl
  | cons kv rest ih =>
    obtain ⟨a, b⟩ := kv
    by_cases h : a = key
    · subst h; simp [amodify, ih]
    · simp [amodify, h, ih]

theorem alookup_map_snd {α β γ : Type} [DecidableEq α] (l : List (α × β))
    (g : β → γ) (key : α) :
    alookup (l.map fun kv => (kv.1, g kv.2)) key = (alookup l key).map g := by
  induction l with
  | nil => rfl
  | cons kv rest ih =>
    obtain ⟨a, b⟩ := kv
    by_cases h : a = key
    · subst h; simp [alookup, ih]
    · simp [alookup, h, ih]

theorem aremove_fst {α β : Type} [DecidableEq α] (l : List (α × β)) (key : α) :
    (aremove l key).1 = alookup l key := by
  induction l with
  | nil => rfl
  | cons kv rest ih =>
    obtain ⟨a, b⟩ := kv
    by_cases h : a = key
    · subst h; simp [aremove, alookup, ih]
    · simp [aremove, alookup, h, ih]

theorem aremove_lookup_ne {α β : Type} [DecidableEq α] (l : List (α × β))
    (key key' : α) (h : key' ≠ key) :
    alookup (aremove l key).2 key' = alookup l key' := by
  induction l with
  | nil => rfl
  | cons kv rest ih =>
    obtain ⟨a, b⟩ := kv
    by_cases h1 : a = key
    · subst h1
      have h2 : ¬a = key' := fun he => h he.symm
      simp [aremove, alookup, h2]
    · by_cases h2 : a = key'
      · subst h2
        simp [aremove, alookup, h1, ih]
      · simp [aremove, alookup, h1, h2, ih]

theorem amodify_id {α β : Type} [DecidableEq α] (l : List (α × β)) (key : α) :
    amodify l key (fun b => b) = l := by
  induction l with
  | nil => rfl
  | cons kv rest ih =>
    obtain ⟨a, b⟩ := kv
    by_cases h : a = key
    · subst h; simp [amodify, ih]
    · simp [amodify, h, ih]

/-! ## Claims -/

/-- **C1** (code bug): at `A = (count 1, mean 0, M2 0)`,
`B = (count 1, mean 2, M2 0)` — inputs at which the `Quad` float
arithmetic of the source is exact, so the rational model is faithful —
`Welford::merge` produces mean `3`: the source computes
`mean += δ·(B.count/A.count) + B.count` (a misuse of `mul_add`) instead of
Chan's `mean += δ·B.count/(A.count+B.count)`, which gives mean `1`.  The
`count` and `M2` components do agree with Chan's parallel formula. -/
theorem welford_merge_mean_is_not_chans_formula :
    Welford.merge (⟨1, 0, 0⟩ : Welford ℚ) ⟨1, 2, 0⟩ = ⟨2, 3, 2⟩ ∧
    Welford.chanMerge (⟨1, 0, 0⟩ : Welford ℚ) ⟨1, 2, 0⟩ = ⟨2, 1, 2⟩ ∧
    Welford.merge (⟨1, 0, 0⟩ : Welford ℚ) ⟨1, 2, 0⟩ ≠
      Welford.chanMerge (⟨1, 0, 0⟩ : Welford ℚ) ⟨1, 2, 0⟩ := by
  refine ⟨?_, ?_, ?_⟩
  · simp only [Welford.merge, Welford.mk.injEq]; norm_num
  · simp only [Welford.chanMerge, Welford.mk.injEq]; norm_num
  · simp only [Welford.merge, Welford.chanMerge, ne_eq, Welford.mk.injEq]; norm_num

/-- **C2** (code bug): `SpanProcessor::insert` sets `last_seen` only inside
`or_insert_with`, i.e. when it creates the group; a second insert at
`t = 2` into the group created at `t = 1` leaves `last_seen = 1`, and the
subsequent `cleanup(2)` therefore drops a group that was touched at
`t = 2` — contradicting both `last_seen == t` after insert and the group
surviving cleanup. -/
theorem span_insert_leaves_last_seen_stale :
    (alookup (((SpanProcessor.new cfgNoMetrics).insert 1 (mkSpan "s" 0 5) none
          []).insert 2 (mkSpan "s" 0 5) none []).groups []).map (·.last_seen)
      = some 1 ∧
    ((((SpanProcessor.new cfgNoMetrics).insert 1 (mkSpan "s" 0 5) none
          []).insert 2 (mkSpan "s" 0 5) none []).cleanup 2).groups.length = 0 := by
  exact ⟨by decide, by decide⟩

/-- **C3** (counterexample): with two outer rule lists whose rules both
select configuration `"a"`, inserting a single-span trace leaves the
`CountSum` accumulator of the `duration` metric at count `2`, whereas a
single `SpanProcessor::insert` of the same span gives count `1`: the
insert is performed once per matching outer list, not once per
(config, group). -/
theorem trace_insert_duplicate_config_counts_twice :
    ((alookup ((TraceProcessor.new dupRulesConfig).insert 0 [mkSpan "s" 0 5]).groups
        "a").bind
      fun sp => (alookup sp.groups []).bind
      fun m => (alookup m.metrics "duration").map
      fun mp => csCount mp.stats.mean_stddev) = some (some 2) ∧
    ((alookup ((SpanProcessor.new cfgDur).insert 0 (mkSpan "s" 0 5) none []).groups
        []).bind
      fun m => (alookup m.metrics "duration").map
      fun mp => csCount mp.stats.mean_stddev) = some (some 1) := by
  exact ⟨by decide, by decide⟩

/-- **C3** (amended): `TraceProcessor::insert` performs one insert per
outer rule list whose first matching rule names the configuration: folding
the chosen rules, `k` rules naming configuration `c` apply
`SpanProcessor::insert` `k` times to that configuration's processor, and
are skipped when the configuration has no processor. -/
theorem trace_route_insert_once_per_chosen_rule :
    ∀ (groups : List (String × SpanProcessor)) (c : String) (t : ℤ) (span : Span)
      (parent : Option Span) (children : List Span) (rules : List Rule),
      (∀ r ∈ rules, r.config = c) →
      rules.foldl
          (fun gs rule => TraceProcessor.routeInsert gs rule.config t span parent
            children)
          groups =
        match alookup groups c with
        | some _ =>
          amodify groups c fun p =>
            (fun q => SpanProcessor.insert q t span parent children)^[rules.length] p
        | none => groups := by
  intro groups c t span parent children rules
  induction rules generalizing groups with
  | nil =>
    intro _
    simp only [List.foldl_nil, List.length_nil, Function.iterate_zero]
    cases h : alookup groups c with
    | none => rfl
    | some p => simp [amodify_id]
  | cons r rest ih =>
    intro hall
    have hr : r.config = c := hall r (List.mem_cons_self r rest)
    simp only [List.foldl_cons, hr]
    cases h : alookup groups c with
    | none =>
      rw [TraceProcessor.routeInsert, h]
      rw [ih groups fun r' hr' => hall r' (List.mem_cons_of_mem _ hr'), h]
    | some p =>
      rw [TraceProcessor.routeInsert, h]
      rw [ih _ fun r' hr' => hall r' (List.mem_cons_of_mem _ hr')]
      have hl : alookup
          (amodify groups c fun proc => proc.insert t span parent children) c =
          some (p.insert t span parent children) := by
        rw [alookup_amodify]; simp [h]
      rw [hl, amodify_amodify]
      simp only [List.length_cons, Function.iterate_succ_apply]

/-- **C4** (counterexample): on a span whose `Duration` key extracts the
integer value `5` (not a string), `NoMatch` evaluates to `false`, not
`true` as the claim states. -/
theorem nomatch_on_nonstring_is_false :
    SpanKey.get (.Current .Duration) (mkSpan "s" 0 5) none = some (.int64 5) ∧
    SpanSelector.matches (.NoMatch (.Current .Duration) ⟨"^2..$", fun _ => false⟩)
      (mkSpan "s" 0 5) none = false := by
  exact ⟨by decide, by decide⟩

/-- **C4** (amended): on a non-string (absent, integer or boolean) value
both `Match` and `NoMatch` evaluate to `false`; on a string value they
evaluate to the plain and negated regex match respectively. -/
theorem match_nomatch_semantics :
    ∀ (span : Span) (parent : Option Span) (key : SpanKey) (re : Regex),
      ((∀ s, key.get span parent ≠ some (.str s)) →
        SpanSelector.matches (.Match key re) span parent = false ∧
        SpanSelector.matches (.NoMatch key re) span parent = false) ∧
      (∀ s, key.get span parent = some (.str s) →
        SpanSelector.matches (.Match key re) span parent = re.matches s ∧
        SpanSelector.matches (.NoMatch key re) span parent = (!re.matches s)) := by
  intro span parent key re
  constructor
  · intro h
    cases hv : key.get span parent with
    | none => simp [SpanSelector.matches, hv]
    | some v =>
      cases v with
      | str s => exact absurd hv (h s)
      | int64 n => simp [SpanSelector.matches, hv]
      | bool b => simp [SpanSelector.matches, hv]
  · intro s hs
    simp [SpanSelector.matches, hs]

/-- Witness for the amended C4 theorem: the `Duration` key extracts an
integer, so `Match`/`NoMatch` are both false; the `OperationName` key
extracts the string `"op"`, so they follow the regex. -/
theorem match_nomatch_semantics_witness :
    (SpanSelector.matches (.Match (.Current .Duration) ⟨"^2..$", fun _ => true⟩)
        (mkSpan "s" 0 5) none = false ∧
      SpanSelector.matches (.NoMatch (.Current .Duration) ⟨"^2..$", fun _ => true⟩)
        (mkSpan "s" 0 5) none = false) ∧
    (SpanSelector.matches (.Match (.Current .OperationName) ⟨"^2..$", fun _ => true⟩)
        (mkSpan "s" 0 5) none = Regex.matches ⟨"^2..$", fun _ => true⟩ "op" ∧
      SpanSelector.matches (.NoMatch (.Current .OperationName) ⟨"^2..$", fun _ => true⟩)
        (mkSpan "s" 0 5) none = (!Regex.matches ⟨"^2..$", fun _ => true⟩ "op")) := by
  constructor
  · exact (match_nomatch_semantics (mkSpan "s" 0 5) none (.Current .Duration)
      ⟨"^2..$", fun _ => true⟩).1
      (by intro s; simp [SpanKey.get, KeyName.get, mkSpan])
  · exact (match_nomatch_semantics (mkSpan "s" 0 5) none (.Current .OperationName)
      ⟨"^2..$", fun _ => true⟩).2 "op" (by decide)

/-- **C5** (code bug): `Window::<Welford<T>>::confidence_interval` calls
`distrs::StudentsT::cdf(q, df)` — the Student-t *CDF evaluated at* `q` —
not the inverse CDF (quantile function) at `q` that a confidence interval
requires and that the claim states.  At a window with first snapshot
`(0, 0, 0)` and current snapshot `(2, 1, 2)` we have `n = 2`, `df = 1`;
the Student-t distribution with one degree of freedom is the Cauchy
distribution, whose CDF is `x ↦ 1/2 + arctan x / π` and whose quantile
function is `q ↦ tan (π(q − 1/2))`.  At `q = 1/2` the claimed value
`stddev · t⁻¹(1/2) / n` is `0`, while the code computes
`√2 · (1/2 + arctan(1/2)/π) / 2 > 0`. -/
theorem confidence_interval_uses_cdf_not_quantile :
    Window.confidence_interval Real.sqrt (fun x _ => 1 / 2 + Real.arctan x / Real.pi)
        ⟨0, 0, .Seconds 30, [⟨2, 1, 2⟩, ⟨0, 0, 0⟩]⟩ (1 / 2) ≠
      Window.wstddev Real.sqrt ⟨0, 0, .Seconds 30, [⟨2, 1, 2⟩, ⟨0, 0, 0⟩]⟩ *
        Real.tan (Real.pi * (1 / 2 - 1 / 2)) /
        Window.wcount ⟨0, 0, .Seconds 30, [⟨2, 1, 2⟩, ⟨0, 0, 0⟩]⟩ ∧
    Window.wstddev Real.sqrt ⟨0, 0, .Seconds 30, [⟨2, 1, 2⟩, ⟨0, 0, 0⟩]⟩ *
        Real.tan (Real.pi * (1 / 2 - 1 / 2)) /
        Window.wcount ⟨0, 0, .Seconds 30, [⟨2, 1, 2⟩, ⟨0, 0, 0⟩]⟩ = 0 := by
  have hcur : (⟨0, 0, .Seconds 30, [⟨2, 1, 2⟩, ⟨0, 0, 0⟩]⟩ :
      Window (Welford ℝ)).current = ⟨2, 1, 2⟩ := rfl
  have hfirst : (⟨0, 0, .Seconds 30, [⟨2, 1, 2⟩, ⟨0, 0, 0⟩]⟩ :
      Window (Welford ℝ)).first = ⟨0, 0, 0⟩ := rfl
  have hcount : Window.wcount
      (⟨0, 0, .Seconds 30, [⟨2, 1, 2⟩, ⟨0, 0, 0⟩]⟩ : Window (Welford ℝ)) = 2 := by
    rw [Window.wcount, hcur, hfirst]; norm_num
  have hm2 : Window.wm2
      (⟨0, 0, .Seconds 30, [⟨2, 1, 2⟩, ⟨0, 0, 0⟩]⟩ : Window (Welford ℝ)) = 2 := by
    simp only [Window.wm2, hcur, hfirst]; norm_num
  have hstd : Window.wstddev Real.sqrt
      (⟨0, 0, .Seconds 30, [⟨2, 1, 2⟩, ⟨0, 0, 0⟩]⟩ : Window (Welford ℝ)) =
      Real.sqrt 2 := by
    rw [Window.wstddev, hm2, hcount]; norm_num
  have htan : Real.tan (Real.pi * (1 / 2 - 1 / 2)) = 0 := by
    norm_num [Real.tan_zero]
  have hzero : Window.wstddev Real.sqrt
        (⟨0, 0, .Seconds 30, [⟨2, 1, 2⟩, ⟨0, 0, 0⟩]⟩ : Window (Welford ℝ)) *
        Real.tan (Real.pi * (1 / 2 - 1 / 2)) /
        Window.wcount
          (⟨0, 0, .Seconds 30, [⟨2, 1, 2⟩, ⟨0, 0, 0⟩]⟩ : Window (Welford ℝ)) = 0 := by
    rw [htan]; ring
  refine ⟨?_, hzero⟩
  rw [hzero, Window.confidence_interval, hstd, hcount]
  have ha : 0 < Real.arctan (1 / 2) := by
    have h := Real.arctan_strictMono (show (0 : ℝ) < 1 / 2 by norm_num)
    simpa [Real.arctan_zero] using h
  have hπ := Real.pi_pos
  have hF : 0 < 1 / 2 + Real.arctan (1 / 2) / Real.pi := by positivity
  have hs2 : 0 < Real.sqrt 2 := Real.sqrt_pos.mpr (by norm_num)
  exact ne_of_gt (div_pos (mul_pos hs2 hF) (by norm_num))

/-- Witness for the amended C3 theorem: two always-matching rules naming
configuration `"a"` apply the span insert twice. -/
theorem trace_route_insert_once_per_chosen_rule_witness :
    [(⟨.All [], "a"⟩ : Rule), ⟨.All [], "a"⟩].foldl
        (fun gs rule =>
          TraceProcessor.routeInsert gs rule.config 0 (mkSpan "s" 0 5) none [])
        [("a", SpanProcessor.new cfgDur)] =
      amodify [("a", SpanProcessor.new cfgDur)] "a" fun p =>
        (fun q => SpanProcessor.insert q 0 (mkSpan "s" 0 5) none [])^[2] p := by
  have h := trace_route_insert_once_per_chosen_rule
    [("a", SpanProcessor.new cfgDur)] "a" 0 (mkSpan "s" 0 5) none []
    [⟨.All [], "a"⟩, ⟨.All [], "a"⟩]
    (by
      intro r hr
      rcases List.mem_cons.mp hr with h1 | h1
      · rw [h1]
      · rcases List.mem_cons.mp h1 with h2 | h2
        · rw [h2]
        · cases h2)
  simpa using h

/-- **C6** (confirmed): the `SelfDuration` source computes exactly the
fold stated in the spec — `sum = span.duration`, then per child
`sum -= child.duration - clamp(max_end - child.start, 0, child.duration)
- clamp(child.end - span.end, 0, child.duration) + clamp(max_end -
span.end, 0, child.duration)` with `max_end = max(max_end, child.end)`
seeded at `span.start` — and on the parent `[0, 100]` with children
`[10, 40]` and `[30, 70]` it emits exactly `40`. -/
theorem self_duration_matches_spec_recurrence :
    (∀ (span : Span) (children : List Span),
      SourceProcessor.selfDuration span children = selfDurationSpec span children) ∧
    (SourceProcessor.insert .SelfDuration 0 (mkSpan "p" 0 100) none
        [mkSpan "a" 10 30, mkSpan "b" 30 40]).2 = [(40 : ℚ)] := by
  constructor
  · intro span children
    simp only [SourceProcessor.selfDuration, selfDurationSpec, clamp]
    congr 1
    apply List.foldl_ext
    intro acc child _
    refine Prod.ext ?_ rfl
    dsimp only
    ring
  · norm_num [SourceProcessor.insert, SourceProcessor.selfDuration, mkSpan]

/-- `truncTo bw t` is a multiple of `bw`. -/
theorem truncTo_dvd (bw t : ℤ) : bw ∣ truncTo bw t :=
  ⟨t / bw, by rw [truncTo, Int.emod_def]; ring⟩

/-- The advance loop never changes `bin_width`. -/
theorem advanceLoop_bin_width {T : Type} (init : ℤ → T) (ttr : ℤ) (fuel : ℕ)
    (w : Window T) :
    (Window.advanceLoop init ttr fuel w).bin_width = w.bin_width := by
  induction fuel generalizing w with
  | zero => rfl
  | succ n ih =>
    rw [Window.advanceLoop]
    split
    · rw [ih]; rfl
    · rfl

/-- The advance loop keeps `start` a multiple of `bin_width`. -/
theorem advanceLoop_start_dvd {T : Type} (init : ℤ → T) (ttr : ℤ) (fuel : ℕ)
    (w : Window T) (h : w.binWidth ∣ w.start) :
    (Window.advanceLoop init ttr fuel w).binWidth ∣
      (Window.advanceLoop init ttr fuel w).start := by
  induction fuel generalizing w with
  | zero => exact h
  | succ n ih =>
    rw [Window.advanceLoop]
    split
    · exact ih (Window.advanceStep init w)
        (by simpa [Window.advanceStep, Window.binWidth] using dvd_add h dvd_rfl)
    · exact h

/-- When the loop guard fails at entry, the loop is the identity for any
amount of fuel. -/
theorem advanceLoop_no_step {T : Type} (init : ℤ → T) (ttr : ℤ) (w : Window T)
    (h : ¬(w.start + w.binWidth ≤ ttr)) (fuel : ℕ) :
    Window.advanceLoop init ttr fuel w = w := by
  cases fuel with
  | zero => rfl
  | succ n => rw [Window.advanceLoop, if_neg h]

/-- **C7** (confirmed): windows built by `new_init` have `start` aligned to
a multiple of `bin_width`; `advance_init` preserves that alignment; and
whenever the bucket-truncated timestamp satisfies
`start + bin_width > t_trunc` (in particular whenever `t` regresses),
`advance_init` leaves the whole window state unchanged. -/
theorem window_start_alignment_and_no_regress :
    ∀ (T : Type) (start : ℤ) (init : ℤ → T) (config : WindowConfig)
      (t : ℤ) (init' : ℤ → T) (w : Window T),
      (Window.new_init start init config).binWidth ∣
        (Window.new_init start init config).start ∧
      (w.binWidth ∣ w.start → w.binWidth ∣ (w.advance_init t init').start) ∧
      (truncTo w.binWidth t < w.start + w.binWidth → w.advance_init t init' = w) := by
  intro T start init config t init' w
  refine ⟨?_, ?_, ?_⟩
  · simpa [Window.new_init, Window.binWidth] using
      truncTo_dvd config.bin_width.toTimeDelta start
  · intro h
    have hd := advanceLoop_start_dvd init' (truncTo w.binWidth t)
      (truncTo w.binWidth t - w.start).toNat w h
    rwa [Window.binWidth, advanceLoop_bin_width] at hd
  · intro h
    exact advanceLoop_no_step init' (truncTo w.binWidth t) w (not_le.mpr h) _

/-- Witness for C7: a concrete two-bin window at `start = 0` with
one-second bins; a timestamp inside the current bin leaves it unchanged. -/
theorem window_start_alignment_witness :
    (Window.new_init (5 : ℤ) (fun _ => (0 : ℕ)) ⟨.Seconds 1, 2⟩).binWidth ∣
      (Window.new_init (5 : ℤ) (fun _ => (0 : ℕ)) ⟨.Seconds 1, 2⟩).start ∧
    (⟨0, 0, .Seconds 1, [0, 0]⟩ : Window ℕ).binWidth ∣
      ((⟨0, 0, .Seconds 1, [0, 0]⟩ : Window ℕ).advance_init 3 fun _ => 0).start ∧
    (⟨0, 0, .Seconds 1, [0, 0]⟩ : Window ℕ).advance_init 3 (fun _ => 0) =
      ⟨0, 0, .Seconds 1, [0, 0]⟩ := by
  obtain ⟨h1, h2, h3⟩ := window_start_alignment_and_no_regress ℕ 5 (fun _ => 0)
    ⟨.Seconds 1, 2⟩ 3 (fun _ => 0) ⟨0, 0, .Seconds 1, [0, 0]⟩
  exact ⟨h1, h2 (dvd_zero _), h3 (by norm_num [truncTo, Window.binWidth,
    Duration.toTimeDelta])⟩

/-- Looking a metric name up in the reconciled map: for configurations
with distinct metric names (as in a `BTreeMap`), metrics present in both
maps are updated in place, metrics only in the new configuration are
created fresh, and metrics absent from it are gone. -/
theorem alookup_reconcile (t : ℤ) (cfg : List (String × MetricConfig))
    (old : List (String × MetricProcessor)) (hnd : (cfg.map Prod.fst).Nodup)
    (name : String) :
    alookup (SpanProcessor.reconcileMetrics t cfg old) name =
      (alookup cfg name).map fun c =>
        match alookup old name with
        | some p => p.update t c
        | none => MetricProcessor.new t c := by
  induction cfg generalizing old with
  | nil => rfl
  | cons nc rest ih =>
    obtain ⟨n, c⟩ := nc
    simp only [List.map_cons, List.nodup_cons] at hnd
    by_cases h : n = name
    · subst h
      cases hl : alookup old n with
      | some p =>
        rw [SpanProcessor.reconcileMetrics]
        simp only [aremove_fst, hl]
        simp [alookup]
      | none =>
        rw [SpanProcessor.reconcileMetrics]
        simp only [aremove_fst, hl]
        simp [alookup]
    · rw [SpanProcessor.reconcileMetrics]
      have hne : name ≠ n := fun he => h he.symm
      cases hl : alookup old n with
      | some p =>
        simp only [aremove_fst, hl]
        rw [alookup, if_neg h, ih _ hnd.2, aremove_lookup_ne _ _ _ hne,
          alookup, if_neg h]
      | none =>
        simp only [aremove_fst, hl]
        rw [alookup, if_neg h, ih _ hnd.2, aremove_lookup_ne _ _ _ hne,
          alookup, if_neg h]

/-- **C8** (confirmed): `SpanProcessor::update` drops all groups when the
configured key set changes; with an unchanged key set every group is
preserved with the same key and `last_seen`, and within each group the
metric map is rebuilt from the new configuration — shared metric names are
updated in place via `MetricProcessor::update`, new names are created
fresh, and names absent from the new configuration are dropped. -/
theorem span_update_reconciles_groups :
    ∀ (s : SpanProcessor) (t : ℤ) (config : SpanConfig),
      (s.config.key ≠ config.key → (s.update t config).groups = []) ∧
      (s.config.key = config.key →
        (s.update t config).groups.map Prod.fst = s.groups.map Prod.fst ∧
        ∀ key m, alookup s.groups key = some m →
          ∃ m', alookup (s.update t config).groups key = some m' ∧
            m'.last_seen = m.last_seen ∧
            ((config.metrics.map Prod.fst).Nodup →
              ∀ name, alookup m'.metrics name =
                (alookup config.metrics name).map fun c =>
                  match alookup m.metrics name with
                  | some p => p.update t c
                  | none => MetricProcessor.new t c)) := by
  intro s t config
  constructor
  · intro h
    simp [SpanProcessor.update, h]
  · intro h
    constructor
    · simp only [SpanProcessor.update, if_pos h, List.map_map]
      rfl
    · intro key m hm
      refine ⟨{ m with
          metrics := SpanProcessor.reconcileMetrics t config.metrics m.metrics },
        ?_, rfl, ?_⟩
      · simp only [SpanProcessor.update, if_pos h]
        have hmap := alookup_map_snd s.groups
          (fun mm => MetricsProcessor.mk mm.last_seen
            (SpanProcessor.reconcileMetrics t config.metrics mm.metrics)) key
        rw [hmap, hm]
        rfl
      · intro hnd name
        exact alookup_reconcile t config.metrics m.metrics hnd name

/-- Witness for C8: a processor holding one group; updating with a changed
key set empties the groups, while updating with the same key set keeps
the group and its `last_seen`, and creates the fresh `extra` metric. -/
theorem span_update_reconciles_groups_witness :
    ((((SpanProcessor.new cfgDur).insert 0 (mkSpan "s" 0 5) none []).update 1
        cfgKeyNS).groups = []) ∧
    (((SpanProcessor.new cfgDur).insert 0 (mkSpan "s" 0 5) none []).update 1
        cfgDur2).groups.map Prod.fst =
      ((SpanProcessor.new cfgDur).insert 0 (mkSpan "s" 0 5) none
        []).groups.map Prod.fst ∧
    ∃ m', alookup (((SpanProcessor.new cfgDur).insert 0 (mkSpan "s" 0 5) none
        []).update 1 cfgDur2).groups [] = some m' ∧
      m'.last_seen = 0 ∧ (alookup m'.metrics "extra").isSome = true := by
  obtain ⟨harm1, _⟩ := span_update_reconciles_groups
    ((SpanProcessor.new cfgDur).insert 0 (mkSpan "s" 0 5) none []) 1 cfgKeyNS
  obtain ⟨_, harm2⟩ := span_update_reconciles_groups
    ((SpanProcessor.new cfgDur).insert 0 (mkSpan "s" 0 5) none []) 1 cfgDur2
  have h2 := harm2 rfl
  refine ⟨harm1 (by decide), h2.1, ?_⟩
  obtain ⟨m', hm', hlast, hfn⟩ := h2.2 [] _ rfl
  refine ⟨m', hm', ?_, ?_⟩
  · rw [hlast]
  · rw [hfn (by decide) "extra"]
    rfl

/-- Folding `SummaryProcessor::insert` over a list of values appends them
to the current (index-0) bin and accumulates the lifetime count and sum;
the window indices never move. -/
theorem summary_foldl_insert (vs : List ℚ) (pc : List ℚ) (st : ℤ) (bw : Duration)
    (d : TDigest) (rest : List TDigest) (c : ℕ) (s : ℚ) :
    vs.foldl (fun (p : SummaryProcessor) v => p.insert v)
      ⟨pc, ⟨0, st, bw, d :: rest⟩, c, s⟩ =
      ⟨pc, ⟨0, st, bw, (d ++ vs) :: rest⟩, c + vs.length, s + vs.sum⟩ := by
  induction vs generalizing d c s with
  | nil => simp
  | cons v vs ih =>
    simp only [List.foldl_cons]
    have hstep : (⟨pc, ⟨0, st, bw, d :: rest⟩, c, s⟩ : SummaryProcessor).insert v
        = ⟨pc, ⟨0, st, bw, (d ++ [v]) :: rest⟩, c + 1, s + v⟩ := by
      simp [SummaryProcessor.insert, Window.modifyCurrent, List.getD,
        TDigest.merge_sorted, List.set]
    rw [hstep, ih]
    simp only [SummaryProcessor.mk.injEq, Window.mk.injEq, List.append_assoc,
      List.singleton_append, List.length_cons, List.sum_cons, true_and, and_true]
    exact ⟨by omega, by ring⟩

/-- Merging a ring of empty digests followed by one digest yields that
digest. -/
theorem tdigest_mergeAll_replicate_append (m : ℕ) (vs : TDigest) :
    TDigest.mergeAll (List.replicate m ([] : TDigest) ++ [vs]) = vs := by
  rw [TDigest.mergeAll, List.foldl_append]
  have h1 : List.foldl TDigest.merge (default : TDigest)
      (List.replicate m ([] : TDigest)) = (default : TDigest) := by
    induction m with
    | zero => rfl
    | succ k ih => simpa [List.replicate_succ, TDigest.merge] using ih
  rw [h1]
  simp [TDigest.merge]
  rfl

/-- **C9** (confirmed): `SummaryProcessor::insert` never advances the
summary window — after any sequence of inserts the window's index and
start are those of the freshly created processor — it only accumulates the
lifetime `count`/`sum` and the current bin's digest, so the digest merged
by `sample` contains every value inserted since creation (the quantiles
are lifetime statistics, not windowed ones). -/
theorem summary_insert_never_advances :
    ∀ (t : ℤ) (config : SummaryConfig) (vs : List ℚ),
      0 < config.window.num_bins →
      (vs.foldl (fun (p : SummaryProcessor) v => p.insert v)
          (SummaryProcessor.new t config)).window.i =
        (SummaryProcessor.new t config).window.i ∧
      (vs.foldl (fun (p : SummaryProcessor) v => p.insert v)
          (SummaryProcessor.new t config)).window.start =
        (SummaryProcessor.new t config).window.start ∧
      (vs.foldl (fun (p : SummaryProcessor) v => p.insert v)
          (SummaryProcessor.new t config)).count = vs.length ∧
      (vs.foldl (fun (p : SummaryProcessor) v => p.insert v)
          (SummaryProcessor.new t config)).sum = vs.sum ∧
      (vs.foldl (fun (p : SummaryProcessor) v => p.insert v)
          (SummaryProcessor.new t config)).sampleDigest = vs := by
  intro t config vs h
  obtain ⟨m, hm⟩ : ∃ m, config.window.num_bins = m + 1 :=
    ⟨config.window.num_bins - 1, by omega⟩
  have hring : (List.range config.window.num_bins).map
      (fun _ => (default : TDigest)) =
      ([] : TDigest) :: List.replicate m ([] : TDigest) := by
    rw [List.map_const', List.length_range, hm, List.replicate_succ]
    rfl
  have hnew : SummaryProcessor.new t config =
      ⟨config.percentiles,
        ⟨0, truncTo config.window.bin_width.toTimeDelta t, config.window.bin_width,
          ([] : TDigest) :: List.replicate m ([] : TDigest)⟩, 0, 0⟩ := by
    simp only [SummaryProcessor.new, Window.new, Window.new_init]
    rw [hring]
  rw [hnew, summary_foldl_insert]
  refine ⟨rfl, rfl, by simp, by simp, ?_⟩
  rw [SummaryProcessor.sampleDigest]
  cases m with
  | zero =>
    simp [Window.bins, TDigest.mergeAll, TDigest.merge]
    rfl
  | succ k =>
    have hb : (⟨0, truncTo config.window.bin_width.toTimeDelta t,
        config.window.bin_width,
        (([] : TDigest) ++ vs) :: List.replicate (k + 1) ([] : TDigest)⟩ :
          Window TDigest).bins =
        List.replicate (k + 1) ([] : TDigest) ++ [([] : TDigest) ++ vs] := by
      simp [Window.bins, Nat.one_mod]
    rw [hb, tdigest_mergeAll_replicate_append]
    simp

/-- Witness for C9: inserting `3` then `4` into a fresh two-bin summary
leaves the window in place and makes the sampled digest `[3, 4]`. -/
theorem summary_insert_never_advances_witness :
    (([(3 : ℚ), 4]).foldl (fun (p : SummaryProcessor) v => p.insert v)
        (SummaryProcessor.new 0 ⟨⟨.Seconds 30, 2⟩, []⟩)).window.i =
      (SummaryProcessor.new 0 ⟨⟨.Seconds 30, 2⟩, []⟩).window.i ∧
    (([(3 : ℚ), 4]).foldl (fun (p : SummaryProcessor) v => p.insert v)
        (SummaryProcessor.new 0 ⟨⟨.Seconds 30, 2⟩, []⟩)).window.start =
      (SummaryProcessor.new 0 ⟨⟨.Seconds 30, 2⟩, []⟩).window.start ∧
    (([(3 : ℚ), 4]).foldl (fun (p : SummaryProcessor) v => p.insert v)
        (SummaryProcessor.new 0 ⟨⟨.Seconds 30, 2⟩, []⟩)).count =
      ([(3 : ℚ), 4]).length ∧
    (([(3 : ℚ), 4]).foldl (fun (p : SummaryProcessor) v => p.insert v)
        (SummaryProcessor.new 0 ⟨⟨.Seconds 30, 2⟩, []⟩)).sum =
      ([(3 : ℚ), 4]).sum ∧
    (([(3 : ℚ), 4]).foldl (fun (p : SummaryProcessor) v => p.insert v)
        (SummaryProcessor.new 0 ⟨⟨.Seconds 30, 2⟩, []⟩)).sampleDigest =
      [(3 : ℚ), 4] := by
  exact summary_insert_never_advances 0 ⟨⟨.Seconds 30, 2⟩, []⟩ [3, 4] (by decide)

/-- A fold whose step preserves the key column preserves it overall. -/
theorem foldl_map_fst_eq {α κ β : Type} (step : List (κ × β) → α → List (κ × β))
    (h : ∀ gs a, (step gs a).map Prod.fst = gs.map Prod.fst) :
    ∀ (l : List α) (gs : List (κ × β)),
      (l.foldl step gs).map Prod.fst = gs.map Prod.fst := by
  intro l
  induction l with
  | nil => intro gs; rfl
  | cons a rest ih => intro gs; rw [List.foldl_cons, ih, h]

/-- A single routed insert never changes the set of configurations. -/
theorem routeInsert_map_fst (groups : List (String × SpanProcessor)) (c : String)
    (t : ℤ) (span : Span) (parent : Option Span) (children : List Span) :
    (TraceProcessor.routeInsert groups c t span parent children).map Prod.fst =
      groups.map Prod.fst := by
  rw [TraceProcessor.routeInsert]
  cases alookup groups c with
  | none => rfl
  | some p => exact amodify_map_fst ..

/-- **C10** (confirmed): `TraceProcessor::new` creates exactly one span
processor per entry of the configuration map; `TraceProcessor::insert`
never creates or removes configurations; and a routed insert whose
configuration name has no processor is silently skipped — the state is
returned unchanged, so the remaining rules and spans are processed as if
the rule had not matched. -/
theorem trace_insert_skips_unknown_configs :
    ∀ (P : TraceProcessor) (t : ℤ) (trace : List Span) (config : TraceConfig),
      (TraceProcessor.new config).groups.map Prod.fst =
        config.configs.map Prod.fst ∧
      (P.insert t trace).groups.map Prod.fst = P.groups.map Prod.fst ∧
      ∀ (groups : List (String × SpanProcessor)) (c : String) (span : Span)
        (parent : Option Span) (children : List Span),
        alookup groups c = none →
        TraceProcessor.routeInsert groups c t span parent children = groups := by
  intro P t trace config
  refine ⟨?_, ?_, ?_⟩
  · simp [TraceProcessor.new, List.map_map, Function.comp]
  · rw [TraceProcessor.insert]
    apply foldl_map_fst_eq
    intro gs span
    apply foldl_map_fst_eq
    intro gs' rule
    exact routeInsert_map_fst ..
  · intro groups c span parent children h
    rw [TraceProcessor.routeInsert, h]

/-- Witness for C10: routing a span to the unknown configuration `"b"`
leaves the processor map unchanged. -/
theorem trace_insert_skips_unknown_configs_witness :
    (TraceProcessor.new dupRulesConfig).groups.map Prod.fst =
      dupRulesConfig.configs.map Prod.fst ∧
    (((TraceProcessor.new dupRulesConfig).insert 0 [mkSpan "s" 0 5]).groups.map
        Prod.fst) = (TraceProcessor.new dupRulesConfig).groups.map Prod.fst ∧
    TraceProcessor.routeInsert [("a", SpanProcessor.new cfgDur)] "b" 0
        (mkSpan "s" 0 5) none [] = [("a", SpanProcessor.new cfgDur)] := by
  obtain ⟨h1, h2, h3⟩ := trace_insert_skips_unknown_configs
    (TraceProcessor.new dupRulesConfig) 0 [mkSpan "s" 0 5] dupRulesConfig
  exact ⟨h1, h2, h3 [("a", SpanProcessor.new cfgDur)] "b" (mkSpan "s" 0 5) none []
    rfl⟩

end JAD
